import Mathlib

/-!
Shallow embedding of the motor-control-lab core (Go) over the rationals:
the PID controller (`internal/control/pid/pid.go`), the first-order DC motor
plant (`internal/system/sim/dc_motor.go`), the disturbance decorator
(`internal/system/wrap/disturbed.go`), the deadzone actuator modifier
(`internal/experiment/modifier`), the fixed-step experiment runner
(`internal/experiment/step.go`) and the step-response metrics reducer
(`internal/analysis/metrics.go`).  Machine floats are modelled as `ℚ`; the
float NaN used by the metrics reducer for an undefined settling time is
modelled as `Option ℚ` with `none` standing for "not a number".
-/

namespace MotorControlLab

/-- The clamp helper shared by pid.go and dc_motor.go:
`math.Min(math.Max(x, lo), hi)`. -/
def clamp (x lo hi : ℚ) : ℚ :=
  min (max x lo) hi

namespace pid

/-- Trace captures the internal terms of the PID controller (pid.go). -/
structure Trace where
  Target : ℚ
  Actual : ℚ
  Error : ℚ
  P : ℚ
  I : ℚ
  D : ℚ
  OutRaw : ℚ
  Out : ℚ
  Saturated : Bool
  Integrated : Bool
  deriving Repr, DecidableEq

/-- Controller state: gains, clamp bounds and the mutable fields
`integral`, `prevError`, `hasPrev` of pid.go's Controller struct. -/
structure Controller where
  Kp : ℚ
  Ki : ℚ
  Kd : ℚ
  OutMin : ℚ
  OutMax : ℚ
  integral : ℚ
  prevError : ℚ
  hasPrev : Bool
  deriving Repr, DecidableEq

/-- pid.New: gains as given, output clamp of plus/minus 24, cold state. -/
def Controller.new (kp ki kd : ℚ) : Controller :=
  { Kp := kp, Ki := ki, Kd := kd, OutMin := -24, OutMax := 24,
    integral := 0, prevError := 0, hasPrev := false }

/-- Controller.Step of pid.go.  The Go method mutates the receiver, writes
an optional trace and returns the command; here it returns the new
controller state, the trace and the command. -/
def Controller.step (c : Controller) (target actual dt : ℚ) :
    Controller × Trace × ℚ :=
  let err := target - actual
  if dt ≤ 0 then
    (c,
     { Target := target, Actual := actual, Error := err,
       P := 0, I := 0, D := 0, OutRaw := 0, Out := 0,
       Saturated := false, Integrated := false },
     0)
  else
    let pTerm := c.Kp * err
    let dTerm := if c.hasPrev then c.Kd * (err - c.prevError) / dt else 0
    let outNoI := pTerm + dTerm
    let outPred := outNoI + c.Ki * c.integral
    let freeze := (outPred ≥ c.OutMax ∧ err > 0) ∨ (outPred ≤ c.OutMin ∧ err < 0)
    let integralNew := if freeze then c.integral else c.integral + err * dt
    let integrated : Bool := if freeze then false else true
    let iTerm := c.Ki * integralNew
    let outRaw := pTerm + iTerm + dTerm
    let out := clamp outRaw c.OutMin c.OutMax
    ({ c with integral := integralNew, prevError := err, hasPrev := true },
     { Target := target, Actual := actual, Error := err,
       P := pTerm, I := iTerm, D := dTerm, OutRaw := outRaw, Out := out,
       Saturated := decide (out ≠ outRaw), Integrated := integrated },
     out)

/-- The predicted output Controller.Step computes from the current
(pre-update) integral: P + D + Ki * integral, with D zero in the cold
state. -/
def Controller.predictedOut (c : Controller) (err dt : ℚ) : ℚ :=
  c.Kp * err + (if c.hasPrev then c.Kd * (err - c.prevError) / dt else 0)
    + c.Ki * c.integral

end pid

namespace sim

/-- DCMotor of dc_motor.go: first-order speed plant state. -/
structure DCMotor where
  VelocityRPM : ℚ
  GainRPMPerVolt : ℚ
  TauSeconds : ℚ
  MaxVoltage : ℚ
  appliedVoltage : ℚ
  disturbanceRPMPerS : ℚ
  deriving Repr, DecidableEq

/-- sim.NewDCMotor: gain 100 RPM/V, time constant 0.5 s, voltage bound 24 V;
all other fields are Go zero values. -/
def newDCMotor : DCMotor :=
  { VelocityRPM := 0, GainRPMPerVolt := 100, TauSeconds := 1/2,
    MaxVoltage := 24, appliedVoltage := 0, disturbanceRPMPerS := 0 }

/-- DCMotor.Observe. -/
def DCMotor.observe (m : DCMotor) : ℚ :=
  m.VelocityRPM

/-- DCMotor.Actuate: clamp the command into the symmetric voltage range. -/
def DCMotor.actuate (m : DCMotor) (u : ℚ) : DCMotor :=
  { m with appliedVoltage := clamp u (-m.MaxVoltage) m.MaxVoltage }

/-- DCMotor.SetDisturbanceRPMPerS. -/
def DCMotor.setDisturbanceRPMPerS (m : DCMotor) (d : ℚ) : DCMotor :=
  { m with disturbanceRPMPerS := d }

/-- DCMotor.CurrentDisturbanceRPMPerS. -/
def DCMotor.currentDisturbanceRPMPerS (m : DCMotor) : ℚ :=
  m.disturbanceRPMPerS

/-- DCMotor.Step: no-op for non-positive dt, otherwise forward-Euler
integration with the external disturbance deceleration. -/
def DCMotor.step (m : DCMotor) (dt : ℚ) : DCMotor :=
  if dt ≤ 0 then m
  else
    let target := m.GainRPMPerVolt * m.appliedVoltage
    let alpha := dt / m.TauSeconds
    { m with VelocityRPM :=
        m.VelocityRPM + alpha * (target - m.VelocityRPM) - m.disturbanceRPMPerS * dt }

end sim

namespace wrap

/-- StepDisturbanceConfig of disturbed.go. -/
structure StepDisturbanceConfig where
  Enabled : Bool
  StartS : ℚ
  DurationS : ℚ
  MagnitudeRPMPerS : ℚ
  deriving Repr, DecidableEq

/-- computeDisturbance of disturbed.go: zero when disabled or the magnitude
is zero, zero before StartS, zero at or after StartS + DurationS when
DurationS is positive, otherwise the configured magnitude. -/
def computeDisturbance (t : ℚ) (cfg : StepDisturbanceConfig) : ℚ :=
  if cfg.Enabled = false ∨ cfg.MagnitudeRPMPerS = 0 then 0
  else if t < cfg.StartS then 0
  else if cfg.DurationS > 0 ∧ t ≥ cfg.StartS + cfg.DurationS then 0
  else cfg.MagnitudeRPMPerS

/-- DisturbedSystem of disturbed.go, with the inner system instantiated at
the repository's plant, `sim.DCMotor` (the repository's only
DisturbanceReceiver, so the capability check in Step succeeds). -/
structure DisturbedSystem where
  inner : sim.DCMotor
  cfg : StepDisturbanceConfig
  t : ℚ
  lastDisturbanceRPMPerS : ℚ
  deriving Repr, DecidableEq

/-- NewDisturbedSystem. -/
def newDisturbedSystem (inner : sim.DCMotor) (cfg : StepDisturbanceConfig) :
    DisturbedSystem :=
  { inner := inner, cfg := cfg, t := 0, lastDisturbanceRPMPerS := 0 }

/-- DisturbedSystem.Observe delegates to the inner system. -/
def DisturbedSystem.observe (d : DisturbedSystem) : ℚ :=
  d.inner.observe

/-- DisturbedSystem.Actuate delegates to the inner system. -/
def DisturbedSystem.actuate (d : DisturbedSystem) (u : ℚ) : DisturbedSystem :=
  { d with inner := d.inner.actuate u }

/-- DisturbedSystem.Step: compute the disturbance at the end of the step
interval, record it, push it into the inner system, step the inner
system, then advance internal time by dt. -/
def DisturbedSystem.step (d : DisturbedSystem) (dt : ℚ) : DisturbedSystem :=
  let dist := computeDisturbance (d.t + dt) d.cfg
  { inner := ((d.inner.setDisturbanceRPMPerS dist).step dt),
    cfg := d.cfg,
    t := d.t + dt,
    lastDisturbanceRPMPerS := dist }

/-- DisturbedSystem.Signals. -/
def DisturbedSystem.signals (d : DisturbedSystem) : List (String × ℚ) :=
  [("disturbance_rpm_per_s", d.lastDisturbanceRPMPerS)]

/-- DisturbedSystem.ResetTime: zero the internal clock and the reported
disturbance. -/
def DisturbedSystem.resetTime (d : DisturbedSystem) : DisturbedSystem :=
  { d with t := 0, lastDisturbanceRPMPerS := 0 }

end wrap

namespace modifier

/-- DeadzoneModifier of the experiment/modifier package. -/
structure DeadzoneModifier where
  Threshold : ℚ
  deriving Repr, DecidableEq

/-- DeadzoneModifier.Modify: commands of magnitude below the threshold
collapse to zero; larger commands are shifted toward zero by the
threshold, keeping their sign. -/
def DeadzoneModifier.Modify (m : DeadzoneModifier) (u : ℚ) : ℚ :=
  let absU := |u|
  if absU < m.Threshold then 0
  else if u > 0 then absU - m.Threshold
  else -(absU - m.Threshold)

end modifier

namespace experiment

/-- Sample of step.go: one recorded time step of a run. -/
structure Sample where
  T : ℚ
  DT : ℚ
  Target : ℚ
  Actual : ℚ
  Error : ℚ
  U : ℚ
  P : ℚ
  I : ℚ
  D : ℚ
  OutRaw : ℚ
  Saturated : Bool
  Integrated : Bool
  Signals : List (String × ℚ)
  deriving Repr, DecidableEq

/-- The system.System capability interface used by RunStep: observe,
actuate and step over an explicit state type, plus the optional
SignalReporter capability (`none` when the system does not report
signals). -/
structure SystemOps (σ : Type) where
  observe : σ → ℚ
  actuate : σ → ℚ → σ
  step : σ → ℚ → σ
  signals : Option (σ → List (String × ℚ))

/-- StepConfig of step.go; the optional modifier is its Modify function. -/
structure StepConfig where
  TargetRPM : ℚ
  DT : ℚ
  Duration : ℚ
  Modifier : Option (ℚ → ℚ)

/-- One iteration of RunStep's loop at step index `i`: observe, invoke
the controller, apply the optional modifier, actuate and step the system,
snapshot signals, and record the sample.  Returns the sample together
with the next system and controller states. -/
def runStepIter {σ : Type} (ops : SystemOps σ) (cfg : StepConfig) (i : ℕ)
    (sys : σ) (ctrl : pid.Controller) : Sample × σ × pid.Controller :=
  let t : ℚ := (i : ℚ) * cfg.DT
  let actual := ops.observe sys
  let res := ctrl.step cfg.TargetRPM actual cfg.DT
  let u := match cfg.Modifier with
    | some f => f res.2.2
    | none => res.2.2
  let sysNext := ops.step (ops.actuate sys u) cfg.DT
  let tr := res.2.1
  let sigs := match ops.signals with
    | some f => f sysNext
    | none => []
  ({ T := t, DT := cfg.DT, Target := tr.Target, Actual := tr.Actual,
     Error := tr.Error, U := u, P := tr.P, I := tr.I, D := tr.D,
     OutRaw := tr.OutRaw, Saturated := tr.Saturated,
     Integrated := tr.Integrated, Signals := sigs },
   sysNext, res.1)

/-- The body of RunStep's loop, recursing on the number of remaining
steps; `i` is the current step index. -/
def runStepLoop {σ : Type} (ops : SystemOps σ) (cfg : StepConfig) :
    ℕ → ℕ → σ → pid.Controller → List Sample
  | 0, _, _, _ => []
  | n + 1, i, sys, ctrl =>
    let r := runStepIter ops cfg i sys ctrl
    r.1 :: runStepLoop ops cfg n (i + 1) r.2.1 r.2.2

/-- RunStep of step.go: empty run for non-positive step size or duration,
otherwise floor(duration / step size) iterations of the loop.  The Go
truncation `int(cfg.Duration / cfg.DT)` agrees with the floor because both
quantities are positive on this branch.  The wall-clock duration Go
returns alongside the samples is informational only and is not modelled. -/
def RunStep {σ : Type} (ops : SystemOps σ) (sys : σ) (ctrl : pid.Controller)
    (cfg : StepConfig) : List Sample :=
  if cfg.DT ≤ 0 ∨ cfg.Duration ≤ 0 then []
  else runStepLoop ops cfg (⌊cfg.Duration / cfg.DT⌋).toNat 0 sys ctrl

/-- The SystemOps instance for the bare DCMotor plant: it does not
implement the SignalReporter capability. -/
def dcMotorOps : SystemOps sim.DCMotor :=
  { observe := sim.DCMotor.observe,
    actuate := sim.DCMotor.actuate,
    step := sim.DCMotor.step,
    signals := none }

end experiment

namespace analysis

/-- Metrics of metrics.go; the settling time is `Option ℚ`, with `none`
standing for the float NaN the Go code uses. -/
structure Metrics where
  Target : ℚ
  MaxActual : ℚ
  MinActual : ℚ
  OvershootPercent : ℚ
  SteadyStateError : ℚ
  IAE : ℚ
  SettlingTimeSeconds : Option ℚ
  SaturationFraction : ℚ
  deriving Repr, DecidableEq

/-- Whether every sample of the list has error within the band (the inner
scan of the settling-time loop in Compute). -/
def allWithin (band : ℚ) (l : List experiment.Sample) : Bool :=
  l.all fun s => decide (|s.Error| ≤ band)

/-- The settling-time scan of Compute: skip indices whose error exceeds
the band; at the first remaining index whose whole suffix stays within the
band, return its timestamp; otherwise none. -/
def findSettle (band : ℚ) : List experiment.Sample → Option ℚ
  | [] => none
  | s :: rest =>
    if band < |s.Error| then findSettle band rest
    else if allWithin band (s :: rest) then some s.T
    else findSettle band rest

/-- Compute of metrics.go.  The empty sequence yields the degenerate
record with an undefined settling time; otherwise all reductions run over
the full sample list. -/
def Compute : List experiment.Sample → ℚ → Metrics
  | [], _ =>
    { Target := 0, MaxActual := 0, MinActual := 0, OvershootPercent := 0,
      SteadyStateError := 0, IAE := 0, SettlingTimeSeconds := none,
      SaturationFraction := 0 }
  | s0 :: rest, settleBandFrac =>
    let samples := s0 :: rest
    let target := (rest.getLastD s0).Target
    let maxA := samples.foldl (fun a s => max a s.Actual) s0.Actual
    let minA := samples.foldl (fun a s => min a s.Actual) s0.Actual
    let iae := samples.foldl (fun a s => a + |s.Error| * s.DT) 0
    let sat := samples.countP fun s => s.Saturated
    let overshoot :=
      if target = 0 then 0
      else
        let o := (maxA - target) / |target| * 100
        if o > 0 then o else 0
    let steadyErr := (rest.getLastD s0).Error
    let band0 := |target| * settleBandFrac
    let band := if band0 = 0 then 1/1000000000 else band0
    { Target := target, MaxActual := maxA, MinActual := minA,
      OvershootPercent := overshoot, SteadyStateError := steadyErr,
      IAE := iae, SettlingTimeSeconds := findSettle band samples,
      SaturationFraction := (sat : ℚ) / (samples.length : ℚ) }

/-- The settling band exactly as the spec's sentence words it: the band is
`|target| * settling_band_fraction`, floored to a tiny positive epsilon
when the target is zero (and only then). -/
def specSettlingBand (target frac : ℚ) : ℚ :=
  if target = 0 then 1/1000000000 else |target| * frac

/-- The settling-time scan exactly as the spec's sentence words it: the
first index whose error is within the band and such that every subsequent
sample's error also stays within the band. -/
def specSettle (band : ℚ) : List experiment.Sample → Option ℚ
  | [] => none
  | s :: rest =>
    if |s.Error| ≤ band ∧ ∀ r ∈ rest, |r.Error| ≤ band then some s.T
    else specSettle band rest

/-- A concrete sample exercising the settling-band edge case: nonzero
target 5 with a tiny error of 1e-10. -/
def cexSettleSample : experiment.Sample :=
  { T := 0, DT := 1, Target := 5, Actual := 5 - 1/10000000000,
    Error := 1/10000000000, U := 0, P := 0, I := 0, D := 0, OutRaw := 0,
    Saturated := false, Integrated := false, Signals := [] }

end analysis

/-! ## Theorems -/

/-- Claim C7: for every controller state and every call Step(target,
measurement, dt, trace) with dt <= 0, the returned command is 0, the trace
is populated with only target, measurement and error (all other fields
zero or false), and the integral accumulator, previous error and the
cold/warm flag are all left unchanged. -/
theorem pid_step_nonpositive_dt (c : pid.Controller) (target actual dt : ℚ)
    (h : dt ≤ 0) :
    c.step target actual dt =
      (c,
       { Target := target, Actual := actual, Error := target - actual,
         P := 0, I := 0, D := 0, OutRaw := 0, Out := 0,
         Saturated := false, Integrated := false },
       0) := by
  simp [pid.Controller.step, h]

/-- Witness for C7 at a concrete input: controller New(1,2,3), target 5,
measurement 2, dt = 0. -/
theorem pid_step_nonpositive_dt_witness :
    (pid.Controller.new 1 2 3).step 5 2 0 =
      (pid.Controller.new 1 2 3,
       { Target := 5, Actual := 2, Error := 5 - 2,
         P := 0, I := 0, D := 0, OutRaw := 0, Out := 0,
         Saturated := false, Integrated := false },
       0) :=
  pid_step_nonpositive_dt (pid.Controller.new 1 2 3) 5 2 0 le_rfl

/-- Claim C2: Actuate stores the clamped command; Step is a velocity no-op
for dt <= 0; Step with dt > 0 performs the forward-Euler update with the
last externally set disturbance, which defaults to zero. -/
theorem dc_motor_actuate_step (m : sim.DCMotor) (u d dt : ℚ) :
    ((m.actuate u).appliedVoltage = clamp u (-m.MaxVoltage) m.MaxVoltage) ∧
    (dt ≤ 0 → (m.step dt).VelocityRPM = m.VelocityRPM) ∧
    (0 < dt →
      (m.step dt).VelocityRPM =
        m.VelocityRPM
          + dt / m.TauSeconds * (m.GainRPMPerVolt * m.appliedVoltage - m.VelocityRPM)
          - m.disturbanceRPMPerS * dt) ∧
    ((m.setDisturbanceRPMPerS d).disturbanceRPMPerS = d) ∧
    (sim.newDCMotor.disturbanceRPMPerS = 0) := by
  refine ⟨rfl, fun h => ?_, fun h => ?_, rfl, rfl⟩
  · simp [sim.DCMotor.step, h]
  · simp [sim.DCMotor.step, not_le.mpr h]

/-- Witness for C2 at a concrete input: the default motor, command 30,
disturbance 7, dt = 1. -/
theorem dc_motor_actuate_step_witness :
    (sim.newDCMotor.step 1).VelocityRPM =
      sim.newDCMotor.VelocityRPM
        + 1 / sim.newDCMotor.TauSeconds
          * (sim.newDCMotor.GainRPMPerVolt * sim.newDCMotor.appliedVoltage
              - sim.newDCMotor.VelocityRPM)
        - sim.newDCMotor.disturbanceRPMPerS * 1 :=
  (dc_motor_actuate_step sim.newDCMotor 30 7 1).2.2.1 one_pos

/-- Claim C9: the deadzone modifier computes sign(u) * max(0, |u| - θ);
it returns 0 below the threshold, sign(u) * (|u| - θ) at or above it, and
is antisymmetric in u, for every threshold θ ≥ 0. -/
theorem deadzone_modify_spec (θ u : ℚ) (hθ : 0 ≤ θ) :
    ((modifier.DeadzoneModifier.mk θ).Modify u =
        (SignType.sign u : ℚ) * max 0 (|u| - θ)) ∧
    (|u| < θ → (modifier.DeadzoneModifier.mk θ).Modify u = 0) ∧
    (θ ≤ |u| → (modifier.DeadzoneModifier.mk θ).Modify u =
        (SignType.sign u : ℚ) * (|u| - θ)) ∧
    ((modifier.DeadzoneModifier.mk θ).Modify u =
      -((modifier.DeadzoneModifier.mk θ).Modify (-u))) := by
  have key : ∀ v : ℚ, (modifier.DeadzoneModifier.mk θ).Modify v =
      (SignType.sign v : ℚ) * max 0 (|v| - θ) := by
    intro v
    unfold modifier.DeadzoneModifier.Modify
    rcases lt_trichotomy v 0 with hv | hv | hv
    · rw [sign_neg hv, SignType.coe_neg_one]
      by_cases hb : |v| < θ
      · rw [if_pos hb, max_eq_left (by linarith)]
        ring
      · rw [if_neg hb, if_neg (by intro hc; exact absurd hc (not_lt.mpr hv.le)),
          max_eq_right (by linarith [not_lt.mp hb])]
        ring
    · subst hv
      rw [sign_zero, SignType.coe_zero, zero_mul, abs_zero]
      by_cases h1 : (0 : ℚ) < θ
      · rw [if_pos h1]
      · have hz : θ = 0 := le_antisymm (not_lt.mp h1) hθ
        rw [if_neg h1, if_neg (lt_irrefl 0), hz]
        ring
    · rw [sign_pos hv, SignType.coe_one]
      by_cases hb : |v| < θ
      · rw [if_pos hb, max_eq_left (by linarith)]
        ring
      · rw [if_neg hb, if_pos hv, max_eq_right (by linarith [not_lt.mp hb])]
        ring
  refine ⟨key u, fun hb => ?_, fun hc => ?_, ?_⟩
  · rw [key u, max_eq_left (by linarith), mul_zero]
  · rw [key u, max_eq_right (by linarith)]
  · rw [key u, key (-u), abs_neg, Left.sign_neg, SignType.coe_neg]
    ring

/-- Witness for C9 at a concrete input: threshold 1, command -3.  The
deadzone maps -3 to -2, matches the sign/max closed form, and is the
negation of its value at 3. -/
theorem deadzone_modify_spec_witness :
    ((modifier.DeadzoneModifier.mk 1).Modify (-3) =
        (SignType.sign (-3 : ℚ) : ℚ) * max 0 (|(-3 : ℚ)| - 1)) ∧
    (|(-3 : ℚ)| < 1 → (modifier.DeadzoneModifier.mk 1).Modify (-3) = 0) ∧
    ((1 : ℚ) ≤ |(-3 : ℚ)| → (modifier.DeadzoneModifier.mk 1).Modify (-3) =
        (SignType.sign (-3 : ℚ) : ℚ) * (|(-3 : ℚ)| - 1)) ∧
    ((modifier.DeadzoneModifier.mk 1).Modify (-3) =
      -((modifier.DeadzoneModifier.mk 1).Modify (-(-3)))) :=
  deadzone_modify_spec 1 (-3) zero_le_one

/-- Claim C10: a deadzone modifier with threshold 0 is the identity
function on commands. -/
theorem deadzone_zero_threshold_id (u : ℚ) :
    (modifier.DeadzoneModifier.mk 0).Modify u = u := by
  unfold modifier.DeadzoneModifier.Modify
  rw [if_neg (not_lt.mpr (abs_nonneg u))]
  by_cases hu : u > 0
  · rw [if_pos hu, sub_zero, abs_of_pos hu]
  · rw [if_neg hu, sub_zero, abs_of_nonpos (not_lt.mp hu), neg_neg]

/-- Claim C8, counterexample to the claim as stated: Step accepts any dt
and advances the internal clock by it unconditionally, so a negative dt
strictly decreases the elapsed time.  At t = 1, Step(-1) leaves t = 0. -/
theorem disturbed_time_cex :
    ((wrap.DisturbedSystem.mk sim.newDCMotor
        (wrap.StepDisturbanceConfig.mk false 0 0 0) 1 0).step (-1)).t <
      (wrap.DisturbedSystem.mk sim.newDCMotor
        (wrap.StepDisturbanceConfig.mk false 0 0 0) 1 0).t := by
  show (1 : ℚ) + (-1) < 1
  norm_num

/-- Claim C8 as amended: the decorator clock never decreases under
Observe, Actuate, or Step with nonnegative dt (Step advances it by
exactly dt), and ResetTime sets it to zero. -/
theorem disturbed_time_monotone (d : wrap.DisturbedSystem) (u dt : ℚ)
    (h : 0 ≤ dt) :
    (d.t ≤ (d.step dt).t) ∧ ((d.step dt).t = d.t + dt) ∧
    ((d.actuate u).t = d.t) ∧ (d.resetTime.t = 0) :=
  ⟨by show d.t ≤ d.t + dt; linarith, rfl, rfl, rfl⟩

/-- Witness for C8's amended theorem at a concrete input: the freshly
constructed wrapper, command 2, dt = 1. -/
theorem disturbed_time_monotone_witness :
    ((wrap.newDisturbedSystem sim.newDCMotor
        (wrap.StepDisturbanceConfig.mk false 0 0 0)).t ≤
      ((wrap.newDisturbedSystem sim.newDCMotor
        (wrap.StepDisturbanceConfig.mk false 0 0 0)).step 1).t) ∧
    (((wrap.newDisturbedSystem sim.newDCMotor
        (wrap.StepDisturbanceConfig.mk false 0 0 0)).step 1).t =
      (wrap.newDisturbedSystem sim.newDCMotor
        (wrap.StepDisturbanceConfig.mk false 0 0 0)).t + 1) ∧
    (((wrap.newDisturbedSystem sim.newDCMotor
        (wrap.StepDisturbanceConfig.mk false 0 0 0)).actuate 2).t =
      (wrap.newDisturbedSystem sim.newDCMotor
        (wrap.StepDisturbanceConfig.mk false 0 0 0)).t) ∧
    ((wrap.newDisturbedSystem sim.newDCMotor
        (wrap.StepDisturbanceConfig.mk false 0 0 0)).resetTime.t = 0) :=
  disturbed_time_monotone
    (wrap.newDisturbedSystem sim.newDCMotor
      (wrap.StepDisturbanceConfig.mk false 0 0 0)) 2 1 zero_le_one

/-- Unfolding of Controller.Step on the dt > 0 branch: the full let chain
of pid.go with the guard discharged. -/
theorem pid_step_pos (c : pid.Controller) (target actual dt : ℚ)
    (hdt : 0 < dt) :
    c.step target actual dt =
      (let err := target - actual
       let pTerm := c.Kp * err
       let dTerm := if c.hasPrev then c.Kd * (err - c.prevError) / dt else 0
       let outPred := pTerm + dTerm + c.Ki * c.integral
       let freeze := (outPred ≥ c.OutMax ∧ err > 0) ∨ (outPred ≤ c.OutMin ∧ err < 0)
       let integralNew := if freeze then c.integral else c.integral + err * dt
       let iTerm := c.Ki * integralNew
       let outRaw := pTerm + iTerm + dTerm
       let out := clamp outRaw c.OutMin c.OutMax
       ({ c with integral := integralNew, prevError := err, hasPrev := true },
        { Target := target, Actual := actual, Error := err,
          P := pTerm, I := iTerm, D := dTerm, OutRaw := outRaw, Out := out,
          Saturated := decide (out ≠ outRaw),
          Integrated := if freeze then false else true },
        out)) := by
  unfold pid.Controller.step
  rw [if_neg (not_le.mpr hdt)]

/-- An if-then-else over Bool literals read back as a proposition. -/
theorem ite_false_true_iff (P : Prop) [Decidable P] :
    ((if P then false else true) = true) ↔ ¬ P := by
  split_ifs with h <;> simp [h]

/-- Claim C1: with dt > 0, the integral accumulator is frozen exactly when
the output predicted from the pre-update integral saturates in the
direction of the error, accumulates error * dt otherwise, and the trace's
Integrated flag is true exactly when the accumulation happened. -/
theorem pid_step_antiwindup (c : pid.Controller) (target actual dt : ℚ)
    (hdt : 0 < dt) :
    ((c.step target actual dt).1.integral =
      if (c.predictedOut (target - actual) dt ≥ c.OutMax ∧ target - actual > 0)
          ∨ (c.predictedOut (target - actual) dt ≤ c.OutMin ∧ target - actual < 0)
      then c.integral
      else c.integral + (target - actual) * dt) ∧
    ((c.step target actual dt).2.1.Integrated = true ↔
      ¬ ((c.predictedOut (target - actual) dt ≥ c.OutMax ∧ target - actual > 0)
          ∨ (c.predictedOut (target - actual) dt ≤ c.OutMin ∧ target - actual < 0))) := by
  have hstep := pid_step_pos c target actual dt hdt
  constructor
  · rw [hstep]
    rfl
  · rw [hstep]
    exact ite_false_true_iff _

/-- Witness for C1 at a concrete input: controller New(1,1,0), target 1,
measurement 0, dt = 1; the predicted output 1 does not saturate, so the
integral accumulates to 1 and Integrated is true. -/
theorem pid_step_antiwindup_witness :
    (((pid.Controller.new 1 1 0).step 1 0 1).1.integral =
      if ((pid.Controller.new 1 1 0).predictedOut (1 - 0) 1 ≥ (pid.Controller.new 1 1 0).OutMax ∧ (1 : ℚ) - 0 > 0)
          ∨ ((pid.Controller.new 1 1 0).predictedOut (1 - 0) 1 ≤ (pid.Controller.new 1 1 0).OutMin ∧ (1 : ℚ) - 0 < 0)
      then (pid.Controller.new 1 1 0).integral
      else (pid.Controller.new 1 1 0).integral + (1 - 0) * 1) ∧
    (((pid.Controller.new 1 1 0).step 1 0 1).2.1.Integrated = true ↔
      ¬ (((pid.Controller.new 1 1 0).predictedOut (1 - 0) 1 ≥ (pid.Controller.new 1 1 0).OutMax ∧ (1 : ℚ) - 0 > 0)
          ∨ ((pid.Controller.new 1 1 0).predictedOut (1 - 0) 1 ≤ (pid.Controller.new 1 1 0).OutMin ∧ (1 : ℚ) - 0 < 0))) :=
  pid_step_antiwindup (pid.Controller.new 1 1 0) 1 0 1 one_pos

/-- Claim C6, counterexample to the claim as stated: with Kp = 0, Ki = 1,
Kd = 0 the first (cold) step at target 1, measurement 0, dt = 1 returns 1,
while clamp(P, OutMin, OutMax) = clamp(0, -24, 24) = 0, because the
integral already accumulates on the first step and contributes Ki * error
* dt to the output. -/
theorem pid_cold_step_claim_cex :
    ((pid.Controller.new 0 1 0).step 1 0 1).2.2 ≠
      clamp ((pid.Controller.new 0 1 0).Kp * (1 - 0))
        (pid.Controller.new 0 1 0).OutMin (pid.Controller.new 0 1 0).OutMax := by
  norm_num [pid.Controller.step, pid.Controller.new, clamp]

/-- Claim C6 as amended: the first step of a cold controller with dt > 0
yields a zero derivative term, and its output is clamp(P + Ki * error *
dt, OutMin, OutMax) — reducing to clamp(P, OutMin, OutMax) exactly when
the anti-windup freeze triggers on the predicted output P (in particular
for every choice of gains with Ki = 0). -/
theorem pid_cold_step (c : pid.Controller) (target actual dt : ℚ)
    (hdt : 0 < dt) (hcold : c.hasPrev = false) (hint : c.integral = 0) :
    ((c.step target actual dt).2.1.D = 0) ∧
    ((c.step target actual dt).2.2 =
      clamp (c.Kp * (target - actual) +
          c.Ki * (if (c.Kp * (target - actual) ≥ c.OutMax ∧ target - actual > 0)
                    ∨ (c.Kp * (target - actual) ≤ c.OutMin ∧ target - actual < 0)
                  then 0 else (target - actual) * dt))
        c.OutMin c.OutMax) := by
  have hstep := pid_step_pos c target actual dt hdt
  constructor
  · rw [hstep]
    simp [hcold]
  · rw [hstep]
    simp [hcold, hint, mul_zero, add_zero, zero_add]

/-- Witness for C6's amended theorem at a concrete input: the cold
controller New(0, 1, 0) (hence bounds -24 and 24), target 1,
measurement 0, dt = 1. -/
theorem pid_cold_step_witness :
    (((pid.Controller.new 0 1 0).step 1 0 1).2.1.D = 0) ∧
    (((pid.Controller.new 0 1 0).step 1 0 1).2.2 =
      clamp ((pid.Controller.new 0 1 0).Kp * (1 - 0) +
          (pid.Controller.new 0 1 0).Ki *
            (if ((pid.Controller.new 0 1 0).Kp * (1 - 0) ≥
                    (pid.Controller.new 0 1 0).OutMax ∧ (1 : ℚ) - 0 > 0)
                ∨ ((pid.Controller.new 0 1 0).Kp * (1 - 0) ≤
                    (pid.Controller.new 0 1 0).OutMin ∧ (1 : ℚ) - 0 < 0)
              then 0 else ((1 : ℚ) - 0) * 1))
        (pid.Controller.new 0 1 0).OutMin (pid.Controller.new 0 1 0).OutMax) :=
  pid_cold_step (pid.Controller.new 0 1 0) 1 0 1 one_pos rfl rfl

/-- The disturbance schedule of computeDisturbance as a single condition:
the configured magnitude exactly when enabled, nonzero magnitude, t at or
after the start, and before the end when the duration is positive. -/
theorem computeDisturbance_eq (t : ℚ) (cfg : wrap.StepDisturbanceConfig) :
    wrap.computeDisturbance t cfg =
      if cfg.Enabled = true ∧ cfg.MagnitudeRPMPerS ≠ 0 ∧ cfg.StartS ≤ t ∧
          (cfg.DurationS ≤ 0 ∨ t < cfg.StartS + cfg.DurationS)
      then cfg.MagnitudeRPMPerS else 0 := by
  unfold wrap.computeDisturbance
  by_cases h1 : cfg.Enabled = false ∨ cfg.MagnitudeRPMPerS = 0
  · rw [if_pos h1, if_neg]
    rintro ⟨hEn, hM, -⟩
    rcases h1 with h | h
    · rw [hEn] at h
      exact absurd h (by simp)
    · exact hM h
  · push_neg at h1
    obtain ⟨hEnne, hMne⟩ := h1
    have hEn : cfg.Enabled = true := by
      cases hb : cfg.Enabled
      · exact absurd hb hEnne
      · rfl
    have h1c : ¬ (cfg.Enabled = false ∨ cfg.MagnitudeRPMPerS = 0) := by
      rintro (h | h)
      exacts [hEnne h, hMne h]
    rw [if_neg h1c]
    by_cases h2 : t < cfg.StartS
    · rw [if_pos h2, if_neg]
      rintro ⟨-, -, hst, -⟩
      exact absurd hst (not_le.mpr h2)
    · rw [if_neg h2]
      by_cases h3 : cfg.DurationS > 0 ∧ t ≥ cfg.StartS + cfg.DurationS
      · rw [if_pos h3, if_neg]
        rintro ⟨-, -, -, hd | hd⟩
        · linarith [h3.1]
        · linarith [h3.2]
      · rw [if_neg h3, if_pos]
        push_neg at h3
        refine ⟨hEn, hMne, not_lt.mp h2, ?_⟩
        by_cases hd : cfg.DurationS ≤ 0
        · exact Or.inl hd
        · exact Or.inr (h3 (lt_of_not_le hd))

/-- Claim C4: in every Step(dt) call the decorator records
computeDisturbance(t + dt) as the last-applied disturbance and pushes the
same value into the wrapped plant; the value is the configured magnitude
exactly under the claimed enabling conditions and 0 otherwise; and the
concrete schedule (enabled, start 0.5, duration 2, magnitude 10) turns on
at 0.5 and off at 2.5. -/
theorem disturbed_step_disturbance (d : wrap.DisturbedSystem) (dt : ℚ) :
    ((d.step dt).lastDisturbanceRPMPerS = wrap.computeDisturbance (d.t + dt) d.cfg) ∧
    ((d.step dt).inner.disturbanceRPMPerS = (d.step dt).lastDisturbanceRPMPerS) ∧
    ((d.step dt).lastDisturbanceRPMPerS =
      if d.cfg.Enabled = true ∧ d.cfg.MagnitudeRPMPerS ≠ 0 ∧ d.cfg.StartS ≤ d.t + dt ∧
          (d.cfg.DurationS ≤ 0 ∨ d.t + dt < d.cfg.StartS + d.cfg.DurationS)
      then d.cfg.MagnitudeRPMPerS else 0) ∧
    (∀ s : ℚ,
      wrap.computeDisturbance s (wrap.StepDisturbanceConfig.mk true (1/2) 2 10) =
        if s < 1/2 then 0 else if s < 5/2 then 10 else 0) := by
  refine ⟨rfl, ?_, computeDisturbance_eq (d.t + dt) d.cfg, ?_⟩
  · show ((d.inner.setDisturbanceRPMPerS _).step dt).disturbanceRPMPerS = _
    unfold sim.DCMotor.step
    split <;> rfl
  · intro s
    rw [computeDisturbance_eq]
    by_cases hs : s < 1/2
    · rw [if_pos hs, if_neg]
      intro hc
      exact absurd hc.2.2.1 (not_le.mpr hs)
    · rw [if_neg hs]
      by_cases hs2 : s < 5/2
      · rw [if_pos hs2, if_pos]
        exact ⟨rfl, by norm_num, not_lt.mp hs, Or.inr (by linarith)⟩
      · rw [if_neg hs2, if_neg]
        intro hc
        rcases hc.2.2.2 with h | h
        · norm_num at h
        · rw [show (1 : ℚ)/2 + 2 = 5/2 by norm_num] at h
          exact hs2 h

/-- The loop of RunStep produces exactly as many samples as it is asked
to run. -/
theorem runStepLoop_length {σ : Type} (ops : experiment.SystemOps σ)
    (cfg : experiment.StepConfig) :
    ∀ (n i : ℕ) (sys : σ) (ctrl : pid.Controller),
      (experiment.runStepLoop ops cfg n i sys ctrl).length = n := by
  intro n
  induction n with
  | zero => intro i sys ctrl; rfl
  | succ n ih =>
    intro i sys ctrl
    simp only [experiment.runStepLoop, List.length_cons, ih]

/-- The sample recorded at offset k of the loop started at index i has
timestamp (i + k) * DT. -/
theorem runStepLoop_T {σ : Type} (ops : experiment.SystemOps σ)
    (cfg : experiment.StepConfig) :
    ∀ (n i k : ℕ) (sys : σ) (ctrl : pid.Controller), k < n →
      Option.map experiment.Sample.T
          ((experiment.runStepLoop ops cfg n i sys ctrl).get? k) =
        some (((i + k : ℕ) : ℚ) * cfg.DT) := by
  intro n
  induction n with
  | zero =>
    intro i k sys ctrl hk
    exact absurd hk (Nat.not_lt_zero k)
  | succ n ih =>
    intro i k sys ctrl hk
    cases k with
    | zero =>
      simp only [experiment.runStepLoop, List.get?_cons_zero, Option.map_some,
        Nat.add_zero]
      rfl
    | succ k =>
      simp only [experiment.runStepLoop, List.get?_cons_succ]
      rw [ih (i + 1) k _ _ (Nat.lt_of_succ_lt_succ hk),
        show ((i + 1) + k : ℕ) = (i + (k + 1) : ℕ) by omega]

/-- Claim C3: RunStep returns no samples when the step size or duration
is non-positive; otherwise it returns exactly floor(duration / step size)
samples whose timestamps are exactly i * step size, hence strictly
increasing and starting at 0. -/
theorem runStep_samples {σ : Type} (ops : experiment.SystemOps σ) (sys : σ)
    (ctrl : pid.Controller) (cfg : experiment.StepConfig) :
    ((cfg.DT ≤ 0 ∨ cfg.Duration ≤ 0) →
      experiment.RunStep ops sys ctrl cfg = []) ∧
    (0 < cfg.DT → 0 < cfg.Duration →
      ((experiment.RunStep ops sys ctrl cfg).length =
        (⌊cfg.Duration / cfg.DT⌋).toNat) ∧
      (∀ k : ℕ, k < (experiment.RunStep ops sys ctrl cfg).length →
        Option.map experiment.Sample.T
            ((experiment.RunStep ops sys ctrl cfg).get? k) =
          some ((k : ℚ) * cfg.DT)) ∧
      (∀ (j k : ℕ) (sj sk : experiment.Sample), j < k →
        (experiment.RunStep ops sys ctrl cfg).get? j = some sj →
        (experiment.RunStep ops sys ctrl cfg).get? k = some sk →
        sj.T < sk.T) ∧
      (∀ s0 : experiment.Sample,
        (experiment.RunStep ops sys ctrl cfg).get? 0 = some s0 →
        s0.T = 0)) := by
  constructor
  · intro h
    unfold experiment.RunStep
    rw [if_pos h]
  · intro h1 h2
    have hcond : ¬ (cfg.DT ≤ 0 ∨ cfg.Duration ≤ 0) := by
      rintro (h | h)
      exacts [absurd h1 (not_lt.mpr h), absurd h2 (not_lt.mpr h)]
    have hrun : experiment.RunStep ops sys ctrl cfg =
        experiment.runStepLoop ops cfg (⌊cfg.Duration / cfg.DT⌋).toNat 0 sys ctrl := by
      unfold experiment.RunStep
      rw [if_neg hcond]
    have hT : ∀ k : ℕ, k < (experiment.RunStep ops sys ctrl cfg).length →
        Option.map experiment.Sample.T
            ((experiment.RunStep ops sys ctrl cfg).get? k) =
          some ((k : ℚ) * cfg.DT) := by
      intro k hk
      rw [hrun] at hk ⊢
      rw [runStepLoop_length] at hk
      rw [runStepLoop_T ops cfg _ 0 k sys ctrl hk, Nat.zero_add]
    have hlenOf : ∀ (k : ℕ) (sk : experiment.Sample),
        (experiment.RunStep ops sys ctrl cfg).get? k = some sk →
        k < (experiment.RunStep ops sys ctrl cfg).length := by
      intro k sk hk
      by_contra hcon
      push_neg at hcon
      rw [List.get?_eq_none.mpr hcon] at hk
      exact Option.noConfusion hk
    refine ⟨?_, hT, ?_, ?_⟩
    · rw [hrun, runStepLoop_length]
    · intro j k sj sk hjk hj hk
      have hTj := hT j (hlenOf j sj hj)
      have hTk := hT k (hlenOf k sk hk)
      rw [hj, Option.map_some'] at hTj
      rw [hk, Option.map_some'] at hTk
      rw [Option.some.injEq] at hTj hTk
      rw [hTj, hTk]
      exact mul_lt_mul_of_pos_right (by exact_mod_cast hjk) h1
    · intro s0 h0
      have hT0 := hT 0 (hlenOf 0 s0 h0)
      rw [h0, Option.map_some', Option.some.injEq] at hT0
      rw [hT0, Nat.cast_zero, zero_mul]

/-- Witness for C3 at a concrete input: the default DC motor under
controller New(1, 0, 0) with target 100, step size 1, duration 3 yields
floor(3 / 1) = 3 samples. -/
theorem runStep_samples_witness :
    (experiment.RunStep experiment.dcMotorOps sim.newDCMotor
        (pid.Controller.new 1 0 0)
        (experiment.StepConfig.mk 100 1 3 none)).length =
      (⌊(experiment.StepConfig.mk 100 1 3 none).Duration /
          (experiment.StepConfig.mk 100 1 3 none).DT⌋).toNat :=
  ((runStep_samples experiment.dcMotorOps sim.newDCMotor
      (pid.Controller.new 1 0 0)
      (experiment.StepConfig.mk 100 1 3 none)).2 one_pos three_pos).1

/-- The Boolean inner scan of the settling loop read back as a bounded
quantifier. -/
theorem allWithin_iff (band : ℚ) (l : List experiment.Sample) :
    analysis.allWithin band l = true ↔ ∀ r ∈ l, |r.Error| ≤ band := by
  simp [analysis.allWithin, List.all_eq_true, decide_eq_true_iff]

/-- The settling scan of metrics.go agrees with the spec's wording of the
scan: skipping over-band indices before testing the suffix changes
nothing, because a suffix containing an over-band head never tests
within. -/
theorem findSettle_eq_specSettle (band : ℚ) :
    ∀ l : List experiment.Sample,
      analysis.findSettle band l = analysis.specSettle band l := by
  intro l
  induction l with
  | nil => rfl
  | cons s rest ih =>
    unfold analysis.findSettle analysis.specSettle
    by_cases hs : band < |s.Error|
    · rw [if_pos hs, ih, if_neg]
      rintro ⟨hc, -⟩
      exact absurd hc (not_le.mpr hs)
    · have hsle : |s.Error| ≤ band := not_lt.mp hs
      rw [if_neg hs]
      by_cases hall : ∀ r ∈ rest, |r.Error| ≤ band
      · rw [if_pos, if_pos ⟨hsle, hall⟩]
        refine (allWithin_iff band (s :: rest)).mpr ?_
        intro r hr
        rcases List.mem_cons.mp hr with h | h
        · exact h ▸ hsle
        · exact hall r h
      · rw [if_neg, if_neg (fun hc => hall hc.2), ih]
        intro hc
        exact hall fun r hr =>
          (allWithin_iff band (s :: rest)).mp hc r (List.mem_cons_of_mem s hr)

/-- Claim C5, counterexample to the claim as stated: with target 5 and
band fraction 0, the code floors the zero-width band |5| * 0 to 1e-9 even
though the target is nonzero, so a sample with error 1e-10 settles at
time 0, while a scan with the band the claim prescribes (|target| * frac,
floored only for target = 0) finds no settling index. -/
theorem metrics_settling_claim_cex :
    (analysis.Compute [analysis.cexSettleSample] 0).SettlingTimeSeconds ≠
      analysis.specSettle
        (analysis.specSettlingBand analysis.cexSettleSample.Target 0)
        [analysis.cexSettleSample] := by
  have habs : |(1 : ℚ)/10000000000| = 1/10000000000 :=
    abs_of_pos (by norm_num)
  have hL : (analysis.Compute [analysis.cexSettleSample] 0).SettlingTimeSeconds =
      some 0 := by
    norm_num [analysis.Compute, analysis.findSettle, analysis.allWithin,
      analysis.cexSettleSample, habs]
  have hR : analysis.specSettle
      (analysis.specSettlingBand analysis.cexSettleSample.Target 0)
      [analysis.cexSettleSample] = none := by
    norm_num [analysis.specSettle, analysis.specSettlingBand,
      analysis.cexSettleSample, habs]
  rw [hL, hR]
  exact Option.some_ne_none 0

/-- Claim C5 as amended: on the empty sequence the settling time is
undefined; on a non-empty sequence it is the spec's first-settling-index
scan over the band |target| * frac, floored to the tiny positive epsilon
1e-9 whenever that product is zero — that is, when the target is zero or
the band fraction is zero. -/
theorem metrics_settling (s0 : experiment.Sample)
    (rest : List experiment.Sample) (frac : ℚ) :
    ((analysis.Compute [] frac).SettlingTimeSeconds = none) ∧
    ((analysis.Compute (s0 :: rest) frac).SettlingTimeSeconds =
      analysis.specSettle
        (if |(rest.getLastD s0).Target| * frac = 0 then 1/1000000000
         else |(rest.getLastD s0).Target| * frac)
        (s0 :: rest)) :=
  ⟨rfl, findSettle_eq_specSettle _ _⟩

end MotorControlLab
